import Mathlib

/-!
Shallow embedding of the tick-based production/energy engine of the
exo-colony repository.

The source tree holds two generations of the engine:
* `main.rs` + `game.rs` - the tick that the binary runs (`GameEvent::Update`),
  with `game::EnergyManager` and `game::ResourceManager`;
* `managers.rs` + `component.rs` + `structures.rs` - the newer module set
  (`managers::EnergyManager`, `managers::ResourceManager::collect`).
Definitions below are namespaced `Game` for the former and `Managers` for the
latter; components shared verbatim by both files live at top level.

Machine integers (`u64`) are modelled as `Nat`; every subtraction in the
source is guarded so that no underflow occurs on the paths exercised here,
and Rust's `a - b` on the guarded paths agrees with truncated `Nat`
subtraction.
-/

namespace ExoColony

/-- Raw-material kinds.  The variant list is fixed by the source:
`Base::new` in `structures.rs` enumerates Iron, Aluminum, Carbon, Silica,
Uranium, Water as the storage resource set, and the require-factories match
over exactly these. (The enum's own declaration sits in a module version not
present under `src/`; the spec lists the same six names.) -/
inductive Resource where
  | iron
  | aluminum
  | carbon
  | silica
  | uranium
  | water
deriving DecidableEq, Repr

/-- All resource kinds, used as the iteration order for ledger maps (the
source iterates a `HashMap` whose keys are these kinds; the order is
unspecified there, fixed here). -/
def Resource.all : List Resource :=
  [.iron, .aluminum, .carbon, .silica, .uranium, .water]

/-- Manufactured-good kinds, from the `CommodityRequireFactory` match arms in
`structures.rs`. -/
inductive Commodity where
  | concrete
  | fuel
  | semiconductor
  | glass
  | fuelRod
deriving DecidableEq, Repr

/-- Pointwise update of a finite map modelled as a function. -/
def setF {α β : Type} [DecidableEq α] (f : α → β) (k : α) (v : β) : α → β :=
  fun k' => if k' = k then v else f k'

/-! ## EnergyLedger (`EnergyManager` in both `game.rs` and `managers.rs`) -/

/-- The pooled per-tick energy account: `output`, `stored`, `discharged`,
`deficit`, all `u64` in the source. -/
structure EnergyManager where
  output : Nat
  stored : Nat
  discharged : Nat
  deficit : Nat
deriving DecidableEq, Repr

namespace EnergyManager

/-- Source `EnergyManager::new` - all fields zero. -/
def new : EnergyManager := ⟨0, 0, 0, 0⟩

/-- Source `combined` - `output + stored`. -/
def combined (e : EnergyManager) : Nat := e.output + e.stored

/-- Source `zero` - reset every field to zero. -/
def zero (_e : EnergyManager) : EnergyManager := ⟨0, 0, 0, 0⟩

/-- Source `has_energy(amount)`: `output >= amount || combined >= amount`
(identical in `game.rs` and `managers.rs`). -/
def has_energy (e : EnergyManager) (amount : Nat) : Bool :=
  amount ≤ e.output || amount ≤ e.combined

/-- Source `withdraw_output(amount)` - drain up to `amount` from `output`, return the
amount drained (identical in both files). -/
def withdraw_output (e : EnergyManager) (amount : Nat) : EnergyManager × Nat :=
  if e.output = 0 || amount = 0 then (e, 0)
  else if e.output < amount then ({ e with output := 0 }, e.output)
  else ({ e with output := e.output - amount }, amount)

/-- Source `withdraw_stored(amount)` - drain up to `amount` from `stored`, add the
drained quantity to `discharged`, return it (identical in both files). -/
def withdraw_stored (e : EnergyManager) (amount : Nat) : EnergyManager × Nat :=
  if e.stored = 0 || amount = 0 then (e, 0)
  else if e.stored < amount then
    ({ e with stored := 0, discharged := e.discharged + e.stored }, e.stored)
  else
    ({ e with stored := e.stored - amount, discharged := e.discharged + amount }, amount)

/-- Source `withdraw_discharge(amount)` - drain up to `amount` from `discharged`
(identical in both files). -/
def withdraw_discharge (e : EnergyManager) (amount : Nat) : EnergyManager × Nat :=
  if e.discharged = 0 || amount = 0 then (e, 0)
  else if e.discharged < amount then ({ e with discharged := 0 }, e.discharged)
  else ({ e with discharged := e.discharged - amount }, amount)

/-- Source `deposit_deficit` (`game.rs`) / `add_deficit` (`managers.rs`) -
`deficit += amount`. -/
def deposit_deficit (e : EnergyManager) (amount : Nat) : EnergyManager :=
  { e with deficit := e.deficit + amount }

end EnergyManager

namespace Game

/-- Source `game.rs` `EnergyManager::withdraw`: drain `output` first, then `stored`
for the remainder; return the total obtained, capped at `amount`. -/
def withdraw (e : EnergyManager) (amount : Nat) : EnergyManager × Nat :=
  let p1 := e.withdraw_output amount
  let available_output := p1.2
  if amount ≤ available_output then (p1.1, amount)
  else
    let p2 := p1.1.withdraw_stored (amount - available_output)
    let available := available_output + p2.2
    if amount ≤ available then (p2.1, amount) else (p2.1, available)

end Game

namespace Managers

/-- Source `managers.rs` `EnergyManager::withdraw`: like the `game.rs` version but it
additionally calls `add_deficit(available_stored)` after the stored drain and
`add_deficit(available)` on a shortfall. -/
def withdraw (e : EnergyManager) (amount : Nat) : EnergyManager × Nat :=
  let p1 := e.withdraw_output amount
  let available_output := p1.2
  if amount ≤ available_output then (p1.1, amount)
  else
    let p2 := p1.1.withdraw_stored (amount - available_output)
    let available_stored := p2.2
    let e3 := p2.1.deposit_deficit available_stored
    let available := available_output + available_stored
    if amount ≤ available then (e3, amount)
    else (e3.deposit_deficit available, available)

end Managers

/-! ## Components (`component.rs`, plus the blueprint trait impls in
`structures.rs`) -/

/-- Source `BatteryComponent { capacity, stored }`. -/
structure BatteryComponent where
  capacity : Nat
  stored : Nat
deriving DecidableEq, Repr

namespace BatteryComponent

/-- Source `BatteryTrait::capacity_free` for a blueprint holding this battery:
`capacity - stored`. -/
def capacity_free (b : BatteryComponent) : Nat := b.capacity - b.stored

/-- Source `BatteryTrait::charge(amount)` (`structures.rs`): clamp to the free
capacity; returns the accepted amount. -/
def charge (b : BatteryComponent) (amount : Nat) : BatteryComponent × Nat :=
  let free := b.capacity - b.stored
  if free = 0 then (b, 0)
  else if free ≤ amount then ({ b with stored := b.stored + free }, free)
  else ({ b with stored := b.stored + amount }, amount)

/-- Source `BatteryTrait::discharge(amount)` (`structures.rs`): drain up to `amount`
from `stored`; returns the drained amount. -/
def discharge (b : BatteryComponent) (amount : Nat) : BatteryComponent × Nat :=
  if b.stored < amount then ({ b with stored := 0 }, b.stored)
  else ({ b with stored := b.stored - amount }, amount)

end BatteryComponent

/-- Source `ResourceStorageComponent { capacity, resources }` with its key set
(`kinds`) made explicit (the source keys two `HashMap`s by the same
constructor-supplied resource list). -/
structure ResourceStorageComponent where
  capacity : Resource → Nat
  resources : Resource → Nat
  kinds : List Resource

namespace ResourceStorageComponent

/-- Source `ResourceStorageComponent::new(items)`: each listed resource gets
stock 0 and capacity 1000. -/
def new (items : List Resource) : ResourceStorageComponent :=
  ⟨fun _ => 1000, fun _ => 0, items⟩

/-- Source `capacity_free(group)`: `capacity[group] - resources[group]`. -/
def capacity_free (c : ResourceStorageComponent) (g : Resource) : Nat :=
  c.capacity g - c.resources g

/-- Component-level `resource_add`: unclamped `resources[group] += amount`. -/
def resource_add (c : ResourceStorageComponent) (g : Resource) (amount : Nat) :
    ResourceStorageComponent :=
  { c with resources := setF c.resources g (c.resources g + amount) }

end ResourceStorageComponent

/-- Source `CommodityStorageComponent { capacity, commodities }`. -/
structure CommodityStorageComponent where
  capacity : Commodity → Nat
  commodities : Commodity → Nat
  kinds : List Commodity

namespace CommodityStorageComponent

/-- Source `CommodityStorageComponent::new(items)`. -/
def new (items : List Commodity) : CommodityStorageComponent :=
  ⟨fun _ => 1000, fun _ => 0, items⟩

/-- Source `capacity_free(group)`. -/
def capacity_free (c : CommodityStorageComponent) (g : Commodity) : Nat :=
  c.capacity g - c.commodities g

/-- Component-level `commodity_add`: unclamped. -/
def commodity_add (c : CommodityStorageComponent) (g : Commodity) (amount : Nat) :
    CommodityStorageComponent :=
  { c with commodities := setF c.commodities g (c.commodities g + amount) }

end CommodityStorageComponent

namespace Blueprint

/-- Source `ResourceStorageTrait::resource_add` on a blueprint (`structures.rs`):
clamp `amount` to the free capacity via a signed `left_over` test and add the
accepted amount to the component; returns the accepted amount. -/
def resource_add (c : ResourceStorageComponent) (g : Resource) (amount : Nat) :
    ResourceStorageComponent × Nat :=
  let free_capacity := c.capacity_free g
  if free_capacity = 0 then (c, 0)
  else
    let left_over : Int := (amount : Int) - (free_capacity : Int)
    if left_over ≤ 0 then (c.resource_add g amount, amount)
    else (c.resource_add g free_capacity, free_capacity)

/-- Source `CommodityStorageTrait::commodity_add` on a blueprint (`structures.rs`). -/
def commodity_add (c : CommodityStorageComponent) (g : Commodity) (amount : Nat) :
    CommodityStorageComponent × Nat :=
  let free_capacity := c.capacity_free g
  if free_capacity = 0 then (c, 0)
  else
    let left_over : Int := (amount : Int) - (free_capacity : Int)
    if left_over ≤ 0 then (c.commodity_add g amount, amount)
    else (c.commodity_add g free_capacity, free_capacity)

/-- Source `FactoryOutputComponent { commodity_out, energy_required,
resource_required }` (`component.rs`); the `resource_required` map is carried
as an association list with distinct keys. -/
structure FactoryOutput where
  commodity_out : Nat
  energy_required : Nat
  resource_required : List (Resource × Nat)

end Blueprint

/-! ## The Storage production arm, shared verbatim by `main.rs` (lines
199-209), `game.rs` and `managers.rs`: walk the ledger's resource entries and
pull each positive stock into the structure's clamped store. -/

/-- One tick of the Storage arm over an explicit key list (the source
iterates the ledger `HashMap`'s keys in unspecified order). -/
def storageIntakeAux : List Resource → ResourceStorageComponent →
    (Resource → Nat) → ResourceStorageComponent × (Resource → Nat)
  | [], store, stocks => (store, stocks)
  | r :: rest, store, stocks =>
    let amount := stocks r
    if 0 < amount then
      let p := Blueprint.resource_add store r amount
      storageIntakeAux rest p.1 (setF stocks r (amount - p.2))
    else storageIntakeAux rest store stocks

/-- The Storage arm over all ledger keys. -/
def storageIntake (store : ResourceStorageComponent) (stocks : Resource → Nat) :
    ResourceStorageComponent × (Resource → Nat) :=
  storageIntakeAux Resource.all store stocks

/-! ## The `main.rs` / `game.rs` generation: placed structures, the material
account (`game::ResourceManager`), and the five tick passes driven by
`GameEvent::Update` (`main.rs` lines 172-262). -/

/-- Key of the old-generation `requires()` map: the `game.rs` resource enum
has an `Energy` pseudo-resource alongside the raw kinds. -/
inductive GKey where
  | energy
  | raw (r : Resource)
deriving DecidableEq, Repr

/-- A placed structure as the tick passes see it: each variant carries the
blueprint components those passes read.  (`Factory.requires` is the
construction-time requirement table; its builder is not part of the sources,
so the table is carried as data.) -/
inductive GameStructure where
  | base (energy_out : Nat) (battery : BatteryComponent)
  | powerPlant (energy_out : Nat)
  | mine (resource : Resource) (energy_in : Nat) (resource_out : Nat)
  | storage (store : ResourceStorageComponent)
  | factory (commodity : Commodity) (commodity_out : Nat)
      (requires : Option (List (GKey × Nat)))

/-- Source `Base::new` (`structures.rs`): `energy_out = 50`, battery
`{capacity = 1000, stored = 0}` (the resource-storage component it also
installs is never read by a tick pass). -/
def Base.new : GameStructure := .base 50 ⟨1000, 0⟩

/-- Source `PowerPlant::new` (`structures.rs`): `energy_out = 100`. -/
def PowerPlant.new : GameStructure := .powerPlant 100

/-- Source `game::ResourceManager`: global stock per resource and commodity kind
(this generation keeps no deficit counters). -/
structure GameRM where
  resources : Resource → Nat
  commodities : Commodity → Nat

namespace GameRM

/-- Source `has_resource(kind, amount)`: `*available > amount` (strict). -/
def has_resource (rm : GameRM) (r : Resource) (amount : Nat) : Bool :=
  amount < rm.resources r

/-- Source `deposit_resource(kind, amount)`: unconditional `stock += amount`. -/
def deposit_resource (rm : GameRM) (r : Resource) (amount : Nat) : GameRM :=
  { rm with resources := setF rm.resources r (rm.resources r + amount) }

/-- Source `withdraw_resource(kind, amount)`: clamp to the available stock; returns
the amount removed. -/
def withdraw_resource (rm : GameRM) (r : Resource) (amount : Nat) : GameRM × Nat :=
  let stored := rm.resources r
  if stored < amount then
    ({ rm with resources := setF rm.resources r 0 }, stored)
  else
    ({ rm with resources := setF rm.resources r (stored - amount) }, amount)

/-- Source `deposit_commodity(kind, value)` (`game.rs`): refuses `value = 0`,
otherwise `amount += value`. -/
def deposit_commodity (rm : GameRM) (c : Commodity) (value : Nat) : GameRM :=
  if value = 0 then rm
  else { rm with commodities := setF rm.commodities c (rm.commodities c + value) }

end GameRM

namespace Game

/-- Source `EnergyManager::collect` (`game.rs`): Base adds `energy_out` to `output`
and its battery's stored value to `stored`; PowerPlant adds `energy_out`. -/
def collect : List GameStructure → EnergyManager → EnergyManager
  | [], e => e
  | s :: rest, e =>
    match s with
    | .base energy_out battery =>
        collect rest
          { e with output := e.output + energy_out, stored := e.stored + battery.stored }
    | .powerPlant energy_out =>
        collect rest { e with output := e.output + energy_out }
    | _ => collect rest e

/-- The per-structure body of the production loop in `GameEvent::Update`
(`main.rs` lines 182-249). -/
def produceStep (e : EnergyManager) (rm : GameRM) (s : GameStructure) :
    EnergyManager × GameRM × GameStructure :=
  match s with
  | .powerPlant _ => (e, rm, s)
  | .base _ _ => (e, rm, s)
  | .mine resource energy_in resource_out =>
    let p := Game.withdraw e energy_in
    if energy_in ≤ p.2 then
      (p.1, rm.deposit_resource resource resource_out, s)
    else
      (p.1.deposit_deficit (energy_in - p.2), rm, s)
  | .storage store =>
    let p := storageIntake store rm.resources
    (e, { rm with resources := p.2 }, .storage p.1)
  | .factory commodity commodity_out requires =>
    match requires with
    | none => (e, rm, s)
    | some reqs =>
      let has_resources := reqs.all fun p =>
        match p.1 with
        | .energy => e.has_energy p.2
        | .raw r => rm.has_resource r p.2
      if has_resources then
        let acc := reqs.foldl
          (fun (acc : EnergyManager × GameRM) p =>
            match p.1 with
            | .energy => ((Game.withdraw acc.1 p.2).1, acc.2)
            | .raw r => (acc.1, (acc.2.withdraw_resource r p.2).1))
          (e, rm)
        (acc.1, acc.2.deposit_commodity commodity commodity_out, s)
      else (e, rm, s)

/-- The production loop over the placed structures, in list order. -/
def producePass : List GameStructure → EnergyManager → GameRM →
    List GameStructure × EnergyManager × GameRM
  | [], e, rm => ([], e, rm)
  | s :: rest, e, rm =>
    let p := produceStep e rm s
    let q := producePass rest p.1 p.2.1
    (p.2.2 :: q.1, q.2)

/-- One structure of `EnergyManager::discharge` (`game.rs`): a Base with a
non-empty battery gives back up to the ledger's `discharged` amount. -/
def dischargeStep (e : EnergyManager) (s : GameStructure) :
    EnergyManager × GameStructure :=
  match s with
  | .base energy_out battery =>
    if 0 < battery.stored && 0 < e.discharged then
      let p := battery.discharge e.discharged
      ((e.withdraw_discharge p.2).1, .base energy_out p.1)
    else (e, s)
  | _ => (e, s)

/-- Source `EnergyManager::discharge` over the structure list. -/
def dischargePass : List GameStructure → EnergyManager →
    List GameStructure × EnergyManager
  | [], e => ([], e)
  | s :: rest, e =>
    let p := dischargeStep e s
    let q := dischargePass rest p.1
    (p.2 :: q.1, q.2)

/-- One structure of `EnergyManager::charge` (`game.rs` lines 367-392): a
Base with free battery capacity absorbs energy withdrawn from `output`; the
PowerPlant arm adds its `energy_out` to `output`. -/
def chargeStep (e : EnergyManager) (s : GameStructure) :
    EnergyManager × GameStructure :=
  match s with
  | .base energy_out battery =>
    let battery_capacity_free := battery.capacity_free
    if 0 < battery_capacity_free then
      if 0 < e.output then
        let p := e.withdraw_output battery_capacity_free
        if 0 < p.2 then (p.1, .base energy_out (battery.charge p.2).1)
        else (p.1, s)
      else (e, s)
    else (e, s)
  | .powerPlant energy_out => ({ e with output := e.output + energy_out }, s)
  | _ => (e, s)

/-- Source `EnergyManager::charge` over the structure list. -/
def chargePass : List GameStructure → EnergyManager →
    List GameStructure × EnergyManager
  | [], e => ([], e)
  | s :: rest, e =>
    let p := chargeStep e s
    let q := chargePass rest p.1
    (p.2 :: q.1, q.2)

/-- The full tick of `GameEvent::Update` (`main.rs` lines 172-262): zero the
energy ledger, collect, run the production loop, then discharge only if
`discharged > 0` and charge only if `output > 0`. -/
def update (objects : List GameStructure) (e : EnergyManager) (rm : GameRM) :
    List GameStructure × EnergyManager × GameRM :=
  let e1 := collect objects e.zero
  let t := producePass objects e1 rm
  let t2 := if 0 < t.2.1.discharged then dischargePass t.1 t.2.1 else (t.1, t.2.1)
  let t3 := if 0 < t2.2.output then chargePass t2.1 t2.2 else t2
  (t3.1, t3.2, t.2.2)

end Game

/-! ## The `managers.rs` generation: `managers::ResourceManager` (stocks plus
per-tick deficit counters) and its production pass `collect`. -/

/-- Source `managers::ResourceManager`: stock and deficit per resource kind, stock
and deficit per commodity kind. -/
structure MResourceManager where
  resources : Resource → Nat
  resources_deficit : Resource → Nat
  commodities : Commodity → Nat
  commodities_deficit : Commodity → Nat

namespace MResourceManager

/-- Source `has_resource(kind, amount)`: `*available > amount` (strict). -/
def has_resource (rm : MResourceManager) (r : Resource) (amount : Nat) : Bool :=
  amount < rm.resources r

/-- Source `deposit_resource(kind, amount)`: unconditional `stock += amount`. -/
def deposit_resource (rm : MResourceManager) (r : Resource) (amount : Nat) :
    MResourceManager :=
  { rm with resources := setF rm.resources r (rm.resources r + amount) }

/-- Source `withdraw_resource(kind, amount)`: clamp to the available stock; returns
the amount removed. -/
def withdraw_resource (rm : MResourceManager) (r : Resource) (amount : Nat) :
    MResourceManager × Nat :=
  let stored := rm.resources r
  if stored < amount then
    ({ rm with resources := setF rm.resources r 0 }, stored)
  else
    ({ rm with resources := setF rm.resources r (stored - amount) }, amount)

/-- Source `add_resource_deficit(kind, amount)`. -/
def add_resource_deficit (rm : MResourceManager) (r : Resource) (amount : Nat) :
    MResourceManager :=
  { rm with resources_deficit := setF rm.resources_deficit r (rm.resources_deficit r + amount) }

/-- Source `deposit_commodity(kind, value)` (`managers.rs`): unconditional. -/
def deposit_commodity (rm : MResourceManager) (c : Commodity) (value : Nat) :
    MResourceManager :=
  { rm with commodities := setF rm.commodities c (rm.commodities c + value) }

/-- Source `add_commodity_deficit(kind, amount)`. -/
def add_commodity_deficit (rm : MResourceManager) (c : Commodity) (amount : Nat) :
    MResourceManager :=
  { rm with commodities_deficit := setF rm.commodities_deficit c (rm.commodities_deficit c + amount) }

/-- Source `zero_deficit`: reset every deficit counter. -/
def zero_deficit (rm : MResourceManager) : MResourceManager :=
  { rm with resources_deficit := fun _ => 0, commodities_deficit := fun _ => 0 }

end MResourceManager

/-- A placed structure as `managers::ResourceManager::collect` sees it; the
Factory variant carries the commodity-producing output component of its
blueprint. -/
inductive MStructure where
  | base (energy_out : Nat) (battery : BatteryComponent)
  | powerPlant (energy_out : Nat)
  | mine (resource : Resource) (energy_in : Nat) (resource_out : Nat)
  | storage (store : ResourceStorageComponent)
  | factory (commodity : Commodity) (output : Blueprint.FactoryOutput)

namespace Managers

/-- The per-structure body of `ResourceManager::collect` (`managers.rs`
lines 359-422): the production pass of the newer generation. -/
def collectStep (em : EnergyManager) (rm : MResourceManager) (s : MStructure) :
    EnergyManager × MResourceManager × MStructure :=
  match s with
  | .powerPlant _ => (em, rm, s)
  | .base _ _ => (em, rm, s)
  | .mine resource energy_in resource_out =>
    if em.has_energy energy_in then
      ((Managers.withdraw em energy_in).1, rm.deposit_resource resource resource_out, s)
    else
      (em.deposit_deficit energy_in, rm.add_resource_deficit resource resource_out, s)
  | .storage store =>
    let p := storageIntake store rm.resources
    (em, { rm with resources := p.2 }, .storage p.1)
  | .factory commodity out =>
    let has_energy := em.has_energy out.energy_required
    let has_resources := out.resource_required.all fun p => rm.has_resource p.1 p.2
    if has_energy && has_resources then
      let em1 := (Managers.withdraw em out.energy_required).1
      let rm1 := out.resource_required.foldl
        (fun (acc : MResourceManager) p => (acc.withdraw_resource p.1 p.2).1) rm
      (em1, rm1.deposit_commodity commodity out.commodity_out, s)
    else
      (em, rm.add_commodity_deficit commodity out.commodity_out, s)

/-- The loop of `ResourceManager::collect` over the structure list. -/
def collectLoop : List MStructure → EnergyManager → MResourceManager →
    List MStructure × EnergyManager × MResourceManager
  | [], em, rm => ([], em, rm)
  | s :: rest, em, rm =>
    let p := collectStep em rm s
    let q := collectLoop rest p.1 p.2.1
    (p.2.2 :: q.1, q.2)

/-- Source `ResourceManager::collect`: zero the deficit counters, then run the
per-structure loop. -/
def collect (objects : List MStructure) (em : EnergyManager) (rm : MResourceManager) :
    List MStructure × EnergyManager × MResourceManager :=
  collectLoop objects em rm.zero_deficit

end Managers

/-! ## Bookkeeping helpers used by the pass theorems -/

/-- The battery charge a single structure holds (zero for structures with no
battery). -/
def baseStored : GameStructure → Nat
  | .base _ b => b.stored
  | _ => 0

/-- The generator output a single structure contributes in the charge pass's
PowerPlant arm. -/
def plantOut : GameStructure → Nat
  | .powerPlant energy_out => energy_out
  | _ => 0

/-- Total battery charge held across a structure list. -/
def batterySum : List GameStructure → Nat
  | [] => 0
  | s :: rest => baseStored s + batterySum rest

/-- Total PowerPlant output across a structure list. -/
def powerOutSum : List GameStructure → Nat
  | [] => 0
  | s :: rest => plantOut s + powerOutSum rest

/-- How the charge pass may change one structure: a Base keeps its
`energy_out` and battery capacity and its battery charge can only grow;
every other structure is left untouched. -/
def chargeShape : GameStructure → GameStructure → Prop
  | .base energy_out b, .base energy_out' b' =>
      energy_out' = energy_out ∧ b'.capacity = b.capacity ∧ b.stored ≤ b'.stored
  | s, s' => s' = s

/-- The `stored ≤ capacity` invariant of every storage-like component a
structure carries. -/
def structInv : GameStructure → Prop
  | .base _ b => b.stored ≤ b.capacity
  | .storage store => ∀ r, store.resources r ≤ store.capacity r
  | _ => True

theorem setF_same {α β : Type} [DecidableEq α] (f : α → β) (k : α) (v : β) :
    setF f k v k = v := by
  simp [setF]

theorem setF_other {α β : Type} [DecidableEq α] (f : α → β) (k k' : α) (v : β)
    (h : k' ≠ k) : setF f k v k' = f k' := by
  simp [setF, h]

/-! ## Helper lemmas on the energy-ledger primitives -/

namespace EnergyManager

theorem withdraw_output_spec (e : EnergyManager) (a : Nat) :
    e.withdraw_output a =
      if e.output < a then ({ e with output := 0 }, e.output)
      else ({ e with output := e.output - a }, a) := by
  obtain ⟨o, s, d, f⟩ := e
  simp only [withdraw_output]
  split_ifs with h1 h2 h3 <;>
    simp only [Bool.or_eq_true, decide_eq_true_eq, not_or] at h1 <;>
    simp only [Prod.mk.injEq, EnergyManager.mk.injEq, and_true, true_and] <;>
    (try cases h1) <;> omega

theorem withdraw_stored_spec (e : EnergyManager) (a : Nat) :
    e.withdraw_stored a =
      if e.stored < a then
        ({ e with stored := 0, discharged := e.discharged + e.stored }, e.stored)
      else
        ({ e with stored := e.stored - a, discharged := e.discharged + a }, a) := by
  obtain ⟨o, s, d, f⟩ := e
  simp only [withdraw_stored]
  split_ifs with h1 h2 h3 <;>
    simp only [Bool.or_eq_true, decide_eq_true_eq, not_or] at h1 <;>
    simp only [Prod.mk.injEq, EnergyManager.mk.injEq, and_true, true_and] <;>
    (try cases h1) <;> omega

theorem withdraw_discharge_spec (e : EnergyManager) (a : Nat) :
    e.withdraw_discharge a =
      if e.discharged < a then ({ e with discharged := 0 }, e.discharged)
      else ({ e with discharged := e.discharged - a }, a) := by
  obtain ⟨o, s, d, f⟩ := e
  simp only [withdraw_discharge]
  split_ifs with h1 h2 h3 <;>
    simp only [Bool.or_eq_true, decide_eq_true_eq, not_or] at h1 <;>
    simp only [Prod.mk.injEq, EnergyManager.mk.injEq, and_true, true_and] <;>
    (try cases h1) <;> omega

end EnergyManager

/-- Closed form of `game.rs` `withdraw`: output first, then stored, the
return value capped at the request. -/
theorem gameWithdraw_spec (e : EnergyManager) (a : Nat) :
    Game.withdraw e a =
      if a ≤ e.output then ({ e with output := e.output - a }, a)
      else if a - e.output ≤ e.stored then
        (⟨0, e.stored - (a - e.output), e.discharged + (a - e.output), e.deficit⟩, a)
      else
        (⟨0, 0, e.discharged + e.stored, e.deficit⟩, e.output + e.stored) := by
  obtain ⟨o, s, d, f⟩ := e
  unfold Game.withdraw
  simp only [EnergyManager.withdraw_output_spec, EnergyManager.withdraw_stored_spec]
  by_cases h : a ≤ o
  · simp [if_neg (by omega : ¬ o < a), h]
  · simp only [if_pos (by omega : o < a), if_neg h, if_neg (by omega : ¬ a ≤ o)]
    by_cases h2 : a - o ≤ s
    · simp only [if_neg (by omega : ¬ s < a - o), if_pos h2,
        if_pos (by omega : a ≤ o + (a - o)), Prod.mk.injEq, EnergyManager.mk.injEq, and_true, true_and]
      try omega
    · simp only [if_pos (by omega : s < a - o), if_neg h2,
        if_neg (by omega : ¬ a ≤ o + s), Prod.mk.injEq, EnergyManager.mk.injEq, and_true, true_and]
      try omega

/-- Closed form of `managers.rs` `withdraw`, including its deficit updates:
the stored drain is always added to `deficit`, and on a shortfall the total
obtained is added again. -/
theorem managersWithdraw_spec (e : EnergyManager) (a : Nat) :
    Managers.withdraw e a =
      if a ≤ e.output then ({ e with output := e.output - a }, a)
      else if a - e.output ≤ e.stored then
        (⟨0, e.stored - (a - e.output), e.discharged + (a - e.output),
          e.deficit + (a - e.output)⟩, a)
      else
        (⟨0, 0, e.discharged + e.stored,
          e.deficit + e.stored + (e.output + e.stored)⟩, e.output + e.stored) := by
  obtain ⟨o, s, d, f⟩ := e
  unfold Managers.withdraw
  simp only [EnergyManager.withdraw_output_spec, EnergyManager.withdraw_stored_spec,
    EnergyManager.deposit_deficit]
  by_cases h : a ≤ o
  · simp [if_neg (by omega : ¬ o < a), h]
  · simp only [if_pos (by omega : o < a), if_neg h, if_neg (by omega : ¬ a ≤ o)]
    by_cases h2 : a - o ≤ s
    · simp only [if_neg (by omega : ¬ s < a - o), if_pos h2,
        if_pos (by omega : a ≤ o + (a - o)), Prod.mk.injEq, EnergyManager.mk.injEq, and_true, true_and]
      try omega
    · simp only [if_pos (by omega : s < a - o), if_neg h2,
        if_neg (by omega : ¬ a ≤ o + s), Prod.mk.injEq, EnergyManager.mk.injEq, and_true, true_and]
      try omega

/-! ## Helper lemmas on storage-like components -/

theorem BatteryComponent.charge_spec (b : BatteryComponent) (a : Nat) :
    (b.charge a).2 ≤ a
    ∧ (b.charge a).2 ≤ b.capacity_free
    ∧ (b.charge a).1.stored = b.stored + (b.charge a).2
    ∧ (b.charge a).1.capacity = b.capacity
    ∧ (b.stored ≤ b.capacity → (b.charge a).1.stored ≤ (b.charge a).1.capacity) := by
  obtain ⟨cap, st⟩ := b
  simp only [BatteryComponent.charge, BatteryComponent.capacity_free]
  split_ifs <;> simp <;> omega

theorem BatteryComponent.discharge_spec (b : BatteryComponent) (a : Nat) :
    (b.discharge a).2 ≤ a
    ∧ (b.discharge a).1.stored = b.stored - (b.discharge a).2
    ∧ (b.discharge a).1.stored ≤ b.stored
    ∧ (b.discharge a).1.capacity = b.capacity
    ∧ (b.stored ≤ b.capacity → (b.discharge a).1.stored ≤ (b.discharge a).1.capacity) := by
  obtain ⟨cap, st⟩ := b
  simp only [BatteryComponent.discharge]
  split_ifs <;> simp <;> omega

theorem Blueprint.resource_add_spec (c : ResourceStorageComponent) (g : Resource)
    (a : Nat) :
    (Blueprint.resource_add c g a).2 ≤ a
    ∧ (Blueprint.resource_add c g a).2 ≤ c.capacity_free g
    ∧ (Blueprint.resource_add c g a).1.capacity = c.capacity
    ∧ (Blueprint.resource_add c g a).1.kinds = c.kinds
    ∧ (Blueprint.resource_add c g a).1.resources g
        = c.resources g + (Blueprint.resource_add c g a).2
    ∧ (∀ r, r ≠ g → (Blueprint.resource_add c g a).1.resources r = c.resources r)
    ∧ (∀ k, c.resources k ≤ c.capacity k →
        (Blueprint.resource_add c g a).1.resources k ≤ c.capacity k) := by
  simp only [Blueprint.resource_add, ResourceStorageComponent.capacity_free,
    ResourceStorageComponent.resource_add]
  split_ifs with h1 h2 <;> dsimp only
  · exact ⟨Nat.zero_le a, Nat.zero_le _, rfl, rfl, by omega, fun r hr => rfl,
      fun k hk => hk⟩
  · refine ⟨le_refl a, by omega, rfl, rfl, by rw [setF_same],
      fun r hr => setF_other _ _ _ _ hr, fun k hk => ?_⟩
    by_cases hkg : k = g
    · subst hkg
      rw [setF_same]
      omega
    · rw [setF_other _ _ _ _ hkg]
      exact hk
  · refine ⟨by omega, le_refl _, rfl, rfl, by rw [setF_same],
      fun r hr => setF_other _ _ _ _ hr, fun k hk => ?_⟩
    by_cases hkg : k = g
    · subst hkg
      rw [setF_same]
      omega
    · rw [setF_other _ _ _ _ hkg]
      exact hk

theorem Blueprint.commodity_add_spec (c : CommodityStorageComponent) (g : Commodity)
    (a : Nat) :
    (Blueprint.commodity_add c g a).2 ≤ a
    ∧ (Blueprint.commodity_add c g a).2 ≤ c.capacity_free g
    ∧ (Blueprint.commodity_add c g a).1.capacity = c.capacity
    ∧ (Blueprint.commodity_add c g a).1.commodities g
        = c.commodities g + (Blueprint.commodity_add c g a).2
    ∧ (∀ r, r ≠ g → (Blueprint.commodity_add c g a).1.commodities r = c.commodities r)
    ∧ (∀ k, c.commodities k ≤ c.capacity k →
        (Blueprint.commodity_add c g a).1.commodities k ≤ c.capacity k) := by
  simp only [Blueprint.commodity_add, CommodityStorageComponent.capacity_free,
    CommodityStorageComponent.commodity_add]
  split_ifs with h1 h2 <;> dsimp only
  · exact ⟨Nat.zero_le a, Nat.zero_le _, rfl, by omega, fun r hr => rfl,
      fun k hk => hk⟩
  · refine ⟨le_refl a, by omega, rfl, by rw [setF_same],
      fun r hr => setF_other _ _ _ _ hr, fun k hk => ?_⟩
    by_cases hkg : k = g
    · subst hkg
      rw [setF_same]
      omega
    · rw [setF_other _ _ _ _ hkg]
      exact hk
  · refine ⟨by omega, le_refl _, rfl, by rw [setF_same],
      fun r hr => setF_other _ _ _ _ hr, fun k hk => ?_⟩
    by_cases hkg : k = g
    · subst hkg
      rw [setF_same]
      omega
    · rw [setF_other _ _ _ _ hkg]
      exact hk

/-- The Storage-arm loop conserves, resource by resource, the sum of local
store and global stock, and never touches capacities or the key list. -/
theorem storageIntakeAux_spec (ks : List Resource) (store : ResourceStorageComponent)
    (stocks : Resource → Nat) :
    (storageIntakeAux ks store stocks).1.capacity = store.capacity
    ∧ (storageIntakeAux ks store stocks).1.kinds = store.kinds
    ∧ ∀ r, (storageIntakeAux ks store stocks).1.resources r
        + (storageIntakeAux ks store stocks).2 r
      = store.resources r + stocks r := by
  induction ks generalizing store stocks with
  | nil => exact ⟨rfl, rfl, fun r => rfl⟩
  | cons k ks ih =>
    simp only [storageIntakeAux]
    split_ifs with h
    · obtain ⟨a1, a2, a3, a4, a5, a6, a7⟩ := Blueprint.resource_add_spec store k (stocks k)
      obtain ⟨i1, i2, i3⟩ := ih (Blueprint.resource_add store k (stocks k)).1
        (setF stocks k (stocks k - (Blueprint.resource_add store k (stocks k)).2))
      refine ⟨by rw [i1, a3], by rw [i2, a4], fun r => ?_⟩
      rw [i3 r]
      by_cases hrk : r = k
      · subst hrk
        rw [setF_same, a5]
        omega
      · rw [setF_other _ _ _ _ hrk, a6 r hrk]
    · exact ih store stocks

/-- The Storage-arm loop keeps every local store within capacity. -/
theorem storageIntakeAux_inv (ks : List Resource) (store : ResourceStorageComponent)
    (stocks : Resource → Nat)
    (h : ∀ r, store.resources r ≤ store.capacity r) :
    ∀ r, (storageIntakeAux ks store stocks).1.resources r
      ≤ (storageIntakeAux ks store stocks).1.capacity r := by
  induction ks generalizing store stocks with
  | nil => exact h
  | cons k ks ih =>
    simp only [storageIntakeAux]
    split_ifs with hpos
    · obtain ⟨a1, a2, a3, a4, a5, a6, a7⟩ := Blueprint.resource_add_spec store k (stocks k)
      refine ih _ _ ?_
      intro r
      rw [a3]
      exact a7 r (h r)
    · exact ih store stocks h

/-- The production step leaves every storage-like component within
capacity. -/
theorem Game.produceStep_inv (e : EnergyManager) (rm : GameRM) (s : GameStructure)
    (h : structInv s) : structInv (Game.produceStep e rm s).2.2 := by
  cases s with
  | base eo b => exact h
  | powerPlant eo => exact h
  | mine r ein rout =>
    simp only [Game.produceStep]
    split_ifs <;> exact h
  | storage store =>
    simp only [Game.produceStep, structInv]
    exact storageIntakeAux_inv Resource.all store rm.resources h
  | factory c cout reqs =>
    simp only [Game.produceStep]
    cases reqs with
    | none => exact h
    | some l =>
      dsimp only
      split_ifs <;> exact h

/-- The production pass preserves the capacity invariant of every placed
structure. -/
theorem Game.producePass_inv (l : List GameStructure) (e : EnergyManager)
    (rm : GameRM) (h : ∀ s ∈ l, structInv s) :
    ∀ s' ∈ (Game.producePass l e rm).1, structInv s' := by
  induction l generalizing e rm with
  | nil => intro s' hs'; cases hs'
  | cons s rest ih =>
    intro s' hs'
    rcases List.mem_cons.mp hs' with rfl | hs2
    · exact Game.produceStep_inv e rm s (h s (List.mem_cons_self s rest))
    · exact ih _ _ (fun t ht => h t (List.mem_cons_of_mem s ht)) s' hs2

/-- The discharge step preserves the capacity invariant. -/
theorem Game.dischargeStep_inv (e : EnergyManager) (s : GameStructure)
    (h : structInv s) : structInv (Game.dischargeStep e s).2 := by
  cases s with
  | base eo b =>
    simp only [Game.dischargeStep]
    split_ifs with hc
    · exact (BatteryComponent.discharge_spec b e.discharged).2.2.2.2 h
    · exact h
  | powerPlant eo => exact h
  | mine r ein rout => exact h
  | storage store => exact h
  | factory c cout reqs => exact h

/-- The discharge pass preserves the capacity invariant. -/
theorem Game.dischargePass_inv (l : List GameStructure) (e : EnergyManager)
    (h : ∀ s ∈ l, structInv s) :
    ∀ s' ∈ (Game.dischargePass l e).1, structInv s' := by
  induction l generalizing e with
  | nil => intro s' hs'; cases hs'
  | cons s rest ih =>
    intro s' hs'
    rcases List.mem_cons.mp hs' with rfl | hs2
    · exact Game.dischargeStep_inv e s (h s (List.mem_cons_self s rest))
    · exact ih _ (fun t ht => h t (List.mem_cons_of_mem s ht)) s' hs2

/-- The charge step preserves the capacity invariant. -/
theorem Game.chargeStep_inv (e : EnergyManager) (s : GameStructure)
    (h : structInv s) : structInv (Game.chargeStep e s).2 := by
  cases s with
  | base eo b =>
    simp only [Game.chargeStep]
    split_ifs with h1 h2 h3
    · exact (BatteryComponent.charge_spec b
        (e.withdraw_output b.capacity_free).2).2.2.2.2 h
    · exact h
    · exact h
    · exact h
  | powerPlant eo => exact h
  | mine r ein rout => exact h
  | storage store => exact h
  | factory c cout reqs => exact h

/-- The charge pass preserves the capacity invariant. -/
theorem Game.chargePass_inv (l : List GameStructure) (e : EnergyManager)
    (h : ∀ s ∈ l, structInv s) :
    ∀ s' ∈ (Game.chargePass l e).1, structInv s' := by
  induction l generalizing e with
  | nil => intro s' hs'; cases hs'
  | cons s rest ih =>
    intro s' hs'
    rcases List.mem_cons.mp hs' with rfl | hs2
    · exact Game.chargeStep_inv e s (h s (List.mem_cons_self s rest))
    · exact ih _ (fun t ht => h t (List.mem_cons_of_mem s ht)) s' hs2

/-- The whole tick preserves the capacity invariant of every structure. -/
theorem Game.update_inv (l : List GameStructure) (e : EnergyManager) (rm : GameRM)
    (h : ∀ s ∈ l, structInv s) :
    ∀ s' ∈ (Game.update l e rm).1, structInv s' := by
  intro s' hs'
  simp only [Game.update] at hs'
  have h1 := Game.producePass_inv l (Game.collect l e.zero) rm h
  set t := Game.producePass l (Game.collect l e.zero) rm with ht
  have h2 : ∀ s ∈ (if 0 < t.2.1.discharged then Game.dischargePass t.1 t.2.1
      else (t.1, t.2.1)).1, structInv s := by
    split_ifs with hd
    · exact Game.dischargePass_inv t.1 t.2.1 h1
    · exact h1
  set t2 := if 0 < t.2.1.discharged then Game.dischargePass t.1 t.2.1
      else (t.1, t.2.1) with ht2
  have h3 : ∀ s ∈ (if 0 < t2.2.output then Game.chargePass t2.1 t2.2 else t2).1,
      structInv s := by
    split_ifs with hc
    · exact Game.chargePass_inv t2.1 t2.2 h2
    · exact h2
  exact h3 s' hs'

/-! ## Claim theorems -/

/-- C8: `has_energy(amount)` is true iff `output ≥ amount` or
`output + stored ≥ amount`, which collapses to `output + stored ≥ amount`;
the comparison is non-strict, so a demand exactly equal to the available
energy is reported satisfiable. -/
theorem C8_has_energy_nonstrict (e : EnergyManager) (a : Nat) :
    (e.has_energy a = true ↔ (a ≤ e.output ∨ a ≤ e.output + e.stored))
    ∧ (e.has_energy a = true ↔ a ≤ e.output + e.stored)
    ∧ e.has_energy (e.output + e.stored) = true := by
  refine ⟨?_, ?_, ?_⟩ <;>
    simp only [EnergyManager.has_energy, EnergyManager.combined, Bool.or_eq_true,
      decide_eq_true_eq] <;> omega

/-- C9: the material-ledger availability check `has_resource(kind, amount)`
(in both `managers.rs` and `game.rs`) returns true iff `stock > amount`,
strictly, so a demand exactly equal to the stock is reported unavailable. -/
theorem C9_has_resource_strict (rm : MResourceManager) (grm : GameRM)
    (r : Resource) (a : Nat) :
    (rm.has_resource r a = true ↔ a < rm.resources r)
    ∧ (grm.has_resource r a = true ↔ a < grm.resources r)
    ∧ rm.has_resource r (rm.resources r) = false
    ∧ grm.has_resource r (grm.resources r) = false := by
  simp [MResourceManager.has_resource, GameRM.has_resource]

/-- C3: both `withdraw` implementations drain `output` before `stored`: when
`output ≥ amount`, only `output` shrinks (by exactly `amount`) and `amount` is
returned; otherwise the remainder comes out of `stored`, the drained
quantity is added to `discharged`, and the returned total never exceeds the
request. -/
theorem C3_withdraw_output_before_stored (e : EnergyManager) (a : Nat) :
    (Game.withdraw e a =
      if a ≤ e.output then ({ e with output := e.output - a }, a)
      else if a - e.output ≤ e.stored then
        (⟨0, e.stored - (a - e.output), e.discharged + (a - e.output), e.deficit⟩, a)
      else
        (⟨0, 0, e.discharged + e.stored, e.deficit⟩, e.output + e.stored))
    ∧ (Game.withdraw e a).2 ≤ a
    ∧ ((Managers.withdraw e a).1.output = (Game.withdraw e a).1.output
        ∧ (Managers.withdraw e a).1.stored = (Game.withdraw e a).1.stored
        ∧ (Managers.withdraw e a).1.discharged = (Game.withdraw e a).1.discharged
        ∧ (Managers.withdraw e a).2 = (Game.withdraw e a).2)
    ∧ (Managers.withdraw e a).2 ≤ a := by
  refine ⟨gameWithdraw_spec e a, ?_, ?_, ?_⟩
  · rw [gameWithdraw_spec]
    split_ifs <;> simp <;> omega
  · rw [gameWithdraw_spec, managersWithdraw_spec]
    split_ifs <;> simp
  · rw [managersWithdraw_spec]
    split_ifs <;> simp <;> omega

/-- C10: in the `managers.rs` `withdraw`, `deficit` grows by the full
stored-drained quantity even when the request is fully satisfied, and on a
shortfall it additionally grows by the total obtained rather than by the
unmet remainder; concretely, one withdrawal of 5 from `(output 0, stored
10)` leaves `deficit = 5` though nothing was unmet, and a withdrawal of 10
from `(output 0, stored 3)` leaves `deficit = 6` though the unmet demand is
7. -/
theorem C10_managers_withdraw_deficit (e : EnergyManager) (a : Nat)
    (h : e.output < a) :
    (a - e.output ≤ e.stored →
      (Managers.withdraw e a).1.deficit = e.deficit + (a - e.output)
        ∧ (Managers.withdraw e a).2 = a)
    ∧ (e.stored < a - e.output →
      (Managers.withdraw e a).1.deficit
          = e.deficit + e.stored + (e.output + e.stored)
        ∧ (Managers.withdraw e a).2 = e.output + e.stored)
    ∧ (Managers.withdraw ⟨0, 10, 0, 0⟩ 5).1.deficit
        ≠ 5 - (Managers.withdraw ⟨0, 10, 0, 0⟩ 5).2
    ∧ (Managers.withdraw ⟨0, 3, 0, 0⟩ 10).1.deficit
        ≠ 10 - (Managers.withdraw ⟨0, 3, 0, 0⟩ 10).2 := by
  refine ⟨?_, ?_, by decide, by decide⟩ <;>
    intro h2 <;> rw [managersWithdraw_spec] <;>
    split_ifs <;> simp <;> omega

/-- Witness for C10 at `e = (output 2, stored 3), a = 4`. -/
theorem C10_managers_withdraw_deficit_witness :
    (2 : Nat) < 4 ∧
    ((4 - 2 ≤ 3 →
      (Managers.withdraw ⟨2, 3, 0, 7⟩ 4).1.deficit = 7 + (4 - 2)
        ∧ (Managers.withdraw ⟨2, 3, 0, 7⟩ 4).2 = 4)
    ∧ (3 < 4 - 2 →
      (Managers.withdraw ⟨2, 3, 0, 7⟩ 4).1.deficit = 7 + 3 + (2 + 3)
        ∧ (Managers.withdraw ⟨2, 3, 0, 7⟩ 4).2 = 2 + 3)
    ∧ (Managers.withdraw ⟨0, 10, 0, 0⟩ 5).1.deficit
        ≠ 5 - (Managers.withdraw ⟨0, 10, 0, 0⟩ 5).2
    ∧ (Managers.withdraw ⟨0, 3, 0, 0⟩ 10).1.deficit
        ≠ 10 - (Managers.withdraw ⟨0, 3, 0, 0⟩ 10).2) :=
  ⟨by decide, C10_managers_withdraw_deficit ⟨2, 3, 0, 7⟩ 4 (by decide)⟩

/-- What one step of the charge pass does: `stored`, `discharged`,
`deficit` are untouched; the sum of ledger output and held battery charge
changes by exactly the structure's PowerPlant contribution; the structure
changes shape only as `chargeShape` allows. -/
theorem Game.chargeStep_spec (e : EnergyManager) (s : GameStructure) :
    (Game.chargeStep e s).1.stored = e.stored
    ∧ (Game.chargeStep e s).1.discharged = e.discharged
    ∧ (Game.chargeStep e s).1.deficit = e.deficit
    ∧ (Game.chargeStep e s).1.output + baseStored (Game.chargeStep e s).2
        = e.output + baseStored s + plantOut s
    ∧ chargeShape s (Game.chargeStep e s).2 := by
  obtain ⟨o, sd, d, f⟩ := e
  cases s with
  | base eo b =>
    obtain ⟨cap, st⟩ := b
    simp only [Game.chargeStep, BatteryComponent.capacity_free,
      EnergyManager.withdraw_output_spec, BatteryComponent.charge,
      baseStored, plantOut, chargeShape]
    split_ifs <;> simp_all <;> omega
  | powerPlant eo =>
    simp [Game.chargeStep, baseStored, plantOut, chargeShape]
  | mine r ein rout =>
    simp [Game.chargeStep, baseStored, plantOut, chargeShape]
  | storage store =>
    simp [Game.chargeStep, baseStored, plantOut, chargeShape]
  | factory c cout reqs =>
    simp [Game.chargeStep, baseStored, plantOut, chargeShape]

/-- C1 (counterexample): with exactly one PowerPlant (`energy_out = 100`)
and one Mine (`energy_in = 25`, `resource_out = 100`, resource Iron) on
zeroed ledgers, one full tick ends with `output = 175`, not `75`: the charge
pass's PowerPlant arm adds `energy_out` to `output` again.  (The Iron stock
does end at 100.) -/
theorem C1_scenarioA_counterexample :
    (Game.update [GameStructure.powerPlant 100, GameStructure.mine Resource.iron 25 100]
        EnergyManager.new ⟨fun _ => 0, fun _ => 0⟩).2.1.output = 175
    ∧ (Game.update [GameStructure.powerPlant 100, GameStructure.mine Resource.iron 25 100]
        EnergyManager.new ⟨fun _ => 0, fun _ => 0⟩).2.1.output ≠ 75
    ∧ (Game.update [GameStructure.powerPlant 100, GameStructure.mine Resource.iron 25 100]
        EnergyManager.new ⟨fun _ => 0, fun _ => 0⟩).2.2.resources Resource.iron = 100 := by
  refine ⟨by decide, by decide, by decide⟩

/-- C1 (amended): in Scenario A the tick ends with
`EnergyLedger.output = 175` (75 left from consumption plus the PowerPlant's
100 re-added by the charge pass) and Iron stock 100, for either visiting
order of the two structures. -/
theorem C1_scenarioA_amended :
    ((Game.update [GameStructure.powerPlant 100, GameStructure.mine Resource.iron 25 100]
        EnergyManager.new ⟨fun _ => 0, fun _ => 0⟩).2.1.output = 175
      ∧ (Game.update [GameStructure.powerPlant 100, GameStructure.mine Resource.iron 25 100]
        EnergyManager.new ⟨fun _ => 0, fun _ => 0⟩).2.2.resources Resource.iron = 100)
    ∧ ((Game.update [GameStructure.mine Resource.iron 25 100, GameStructure.powerPlant 100]
        EnergyManager.new ⟨fun _ => 0, fun _ => 0⟩).2.1.output = 175
      ∧ (Game.update [GameStructure.mine Resource.iron 25 100, GameStructure.powerPlant 100]
        EnergyManager.new ⟨fun _ => 0, fun _ => 0⟩).2.2.resources Resource.iron = 100) := by
  refine ⟨⟨by decide, by decide⟩, by decide, by decide⟩

/-- C2 (counterexample): the charge pass does increase `output` when a
PowerPlant is present: charging over `[PowerPlant (energy_out = 100)]` with
ledger output 5 (so the pass would run) ends with output 105 and changes no
battery at all. -/
theorem C2_charge_counterexample :
    (Game.chargePass [GameStructure.powerPlant 100]
        ⟨5, 0, 0, 0⟩).2.output = 105
    ∧ ¬ (Game.chargePass [GameStructure.powerPlant 100]
        ⟨5, 0, 0, 0⟩).2.output ≤ 5 := by
  refine ⟨by decide, by decide⟩

/-- C2 (amended): the charge pass leaves `stored`, `discharged` and
`deficit` untouched and modifies Base structures only by growing their
battery charge (capacity and `energy_out` preserved, every other structure
kind unchanged), with the total battery gain exactly the energy taken out of
`output`; but `output` is not only drained: each PowerPlant visited adds its
`energy_out` to it, as the conservation equation
`output' + batteries' = output + batteries + plant_output` records. -/
theorem C2_charge_amended (l : List GameStructure) (e : EnergyManager) :
    (Game.chargePass l e).2.stored = e.stored
    ∧ (Game.chargePass l e).2.discharged = e.discharged
    ∧ (Game.chargePass l e).2.deficit = e.deficit
    ∧ (Game.chargePass l e).2.output + batterySum (Game.chargePass l e).1
        = e.output + batterySum l + powerOutSum l
    ∧ List.Forall₂ chargeShape l (Game.chargePass l e).1 := by
  induction l generalizing e with
  | nil =>
    simp [Game.chargePass, batterySum, powerOutSum]
  | cons s rest ih =>
    obtain ⟨h1, h2, h3, h4, h5⟩ := Game.chargeStep_spec e s
    obtain ⟨g1, g2, g3, g4, g5⟩ := ih (Game.chargeStep e s).1
    refine ⟨?_, ?_, ?_, ?_, ?_⟩ <;>
      simp only [Game.chargePass, batterySum, powerOutSum]
    · rw [g1, h1]
    · rw [g2, h2]
    · rw [g3, h3]
    · omega
    · exact List.Forall₂.cons h5 g5

/-- The factory withdrawal fold touches only the `resources` map, and only
at the keys it visits. -/
theorem withdrawFold_frame (ps : List (Resource × Nat)) (rm : MResourceManager) :
    (ps.foldl (fun (acc : MResourceManager) p => (acc.withdraw_resource p.1 p.2).1)
        rm).resources_deficit = rm.resources_deficit
    ∧ (ps.foldl (fun (acc : MResourceManager) p => (acc.withdraw_resource p.1 p.2).1)
        rm).commodities = rm.commodities
    ∧ (ps.foldl (fun (acc : MResourceManager) p => (acc.withdraw_resource p.1 p.2).1)
        rm).commodities_deficit = rm.commodities_deficit
    ∧ ∀ r, r ∉ ps.map Prod.fst →
      (ps.foldl (fun (acc : MResourceManager) p => (acc.withdraw_resource p.1 p.2).1)
        rm).resources r = rm.resources r := by
  induction ps generalizing rm with
  | nil => exact ⟨rfl, rfl, rfl, fun r _ => rfl⟩
  | cons q qs ih =>
    obtain ⟨i1, i2, i3, i4⟩ := ih (rm.withdraw_resource q.1 q.2).1
    refine ⟨?_, ?_, ?_, ?_⟩
    · rw [List.foldl_cons, i1]
      simp only [MResourceManager.withdraw_resource]
      split_ifs <;> rfl
    · rw [List.foldl_cons, i2]
      simp only [MResourceManager.withdraw_resource]
      split_ifs <;> rfl
    · rw [List.foldl_cons, i3]
      simp only [MResourceManager.withdraw_resource]
      split_ifs <;> rfl
    · intro r hr
      rw [List.map_cons] at hr
      have hr1 : r ≠ q.1 := fun h => hr (by simp [h])
      have hr2 : r ∉ qs.map Prod.fst := fun h => hr (by simp [h])
      rw [List.foldl_cons, i4 r hr2]
      simp only [MResourceManager.withdraw_resource]
      split_ifs <;> simp [setF_other _ _ _ _ hr1]

/-- When every visited pair is strictly available and the keys are distinct,
the factory withdrawal fold removes exactly the listed amount at each key. -/
theorem withdrawFold_exact (ps : List (Resource × Nat)) (rm : MResourceManager)
    (hnd : (ps.map Prod.fst).Nodup)
    (hav : ∀ p ∈ ps, p.2 < rm.resources p.1) :
    ∀ p ∈ ps,
      (ps.foldl (fun (acc : MResourceManager) p => (acc.withdraw_resource p.1 p.2).1)
        rm).resources p.1 = rm.resources p.1 - p.2 := by
  induction ps generalizing rm with
  | nil => intro p hp; cases hp
  | cons q qs ih =>
    rw [List.map_cons, List.nodup_cons] at hnd
    intro p hp
    have hq : (rm.withdraw_resource q.1 q.2).1.resources
        = setF rm.resources q.1 (rm.resources q.1 - q.2) := by
      have := hav q (List.mem_cons_self q qs)
      simp only [MResourceManager.withdraw_resource]
      rw [if_neg (by omega)]
    rcases List.mem_cons.mp hp with hp1 | hp2
    · subst hp1
      have hq1 : p.1 ∉ qs.map Prod.fst := hnd.1
      rw [List.foldl_cons, (withdrawFold_frame qs _).2.2.2 p.1 hq1, hq, setF_same]
    · have hne : p.1 ≠ q.1 := by
        intro hcontra
        refine hnd.1 ?_
        rw [← hcontra]
        exact List.mem_map_of_mem Prod.fst hp2
      have hav2 : ∀ p' ∈ qs, p'.2 < (rm.withdraw_resource q.1 q.2).1.resources p'.1 := by
        intro p' hp'
        have hne' : p'.1 ≠ q.1 := by
          intro hcontra
          refine hnd.1 ?_
          rw [← hcontra]
          exact List.mem_map_of_mem Prod.fst hp' 
        rw [hq, setF_other _ _ _ _ hne']
        exact hav p' (List.mem_cons_of_mem q hp')
      rw [List.foldl_cons, ih _ hnd.2 hav2 p hp2, hq, setF_other _ _ _ _ hne]

/-- C4: the Factory arm of the `managers.rs` production pass is
all-or-nothing: when the energy check and every per-resource availability
check pass, exactly `energy_required` is removed from the pooled energy,
each required resource's stock drops by exactly its listed amount, and
`commodity_out` of the factory's commodity is deposited; when the combined
check fails, no energy is taken, no stock and no other ledger field changes,
and only the commodity's deficit grows by `commodity_out`. -/
theorem C4_factory_all_or_nothing (em : EnergyManager) (rm : MResourceManager)
    (c : Commodity) (out : Blueprint.FactoryOutput)
    (hnd : (out.resource_required.map Prod.fst).Nodup) :
    ((em.has_energy out.energy_required = true ∧
      (out.resource_required.all fun p => rm.has_resource p.1 p.2) = true) →
      (Managers.collectStep em rm (.factory c out)).1.output
          + (Managers.collectStep em rm (.factory c out)).1.stored
          + out.energy_required
        = em.output + em.stored
      ∧ (∀ p ∈ out.resource_required,
          (Managers.collectStep em rm (.factory c out)).2.1.resources p.1
            = rm.resources p.1 - p.2)
      ∧ (∀ r, r ∉ out.resource_required.map Prod.fst →
          (Managers.collectStep em rm (.factory c out)).2.1.resources r
            = rm.resources r)
      ∧ (Managers.collectStep em rm (.factory c out)).2.1.commodities c
          = rm.commodities c + out.commodity_out
      ∧ (∀ c', c' ≠ c →
          (Managers.collectStep em rm (.factory c out)).2.1.commodities c'
            = rm.commodities c')
      ∧ (Managers.collectStep em rm (.factory c out)).2.1.resources_deficit
          = rm.resources_deficit
      ∧ (Managers.collectStep em rm (.factory c out)).2.1.commodities_deficit
          = rm.commodities_deficit)
    ∧ ((em.has_energy out.energy_required &&
        out.resource_required.all fun p => rm.has_resource p.1 p.2) = false →
      (Managers.collectStep em rm (.factory c out)).1 = em
      ∧ (Managers.collectStep em rm (.factory c out)).2.1.resources = rm.resources
      ∧ (Managers.collectStep em rm (.factory c out)).2.1.commodities = rm.commodities
      ∧ (Managers.collectStep em rm (.factory c out)).2.1.resources_deficit
          = rm.resources_deficit
      ∧ (Managers.collectStep em rm (.factory c out)).2.1.commodities_deficit c
          = rm.commodities_deficit c + out.commodity_out
      ∧ (∀ c', c' ≠ c →
          (Managers.collectStep em rm (.factory c out)).2.1.commodities_deficit c'
            = rm.commodities_deficit c')) := by
  constructor
  · rintro ⟨hE, hR⟩
    have hall : ∀ p ∈ out.resource_required, p.2 < rm.resources p.1 := by
      intro p hp
      have := List.all_eq_true.mp hR p hp
      simpa [MResourceManager.has_resource] using this
    have hstep : Managers.collectStep em rm (.factory c out)
        = ((Managers.withdraw em out.energy_required).1,
           (out.resource_required.foldl
              (fun (acc : MResourceManager) p => (acc.withdraw_resource p.1 p.2).1)
              rm).deposit_commodity c out.commodity_out,
           .factory c out) := by
      simp only [Managers.collectStep, hE, hR, Bool.and_self, if_true]
    obtain ⟨f1, f2, f3, f4⟩ := withdrawFold_frame out.resource_required rm
    refine ⟨?_, ?_, ?_, ?_, ?_, ?_, ?_⟩
    · rw [hstep]
      simp only [EnergyManager.has_energy, EnergyManager.combined, Bool.or_eq_true,
        decide_eq_true_eq] at hE
      rw [managersWithdraw_spec]
      split_ifs <;> simp <;> omega
    · intro p hp
      rw [hstep]
      simp only [MResourceManager.deposit_commodity]
      exact withdrawFold_exact out.resource_required rm hnd hall p hp
    · intro r hr
      rw [hstep]
      simp only [MResourceManager.deposit_commodity]
      exact f4 r hr
    · rw [hstep]
      simp only [MResourceManager.deposit_commodity, f2, setF_same]
    · intro c' hc
      rw [hstep]
      simp only [MResourceManager.deposit_commodity, f2]
      exact setF_other _ _ _ _ hc
    · rw [hstep]
      simp only [MResourceManager.deposit_commodity]
      exact f1
    · rw [hstep]
      simp only [MResourceManager.deposit_commodity]
      exact f3
  · intro h
    have hstep : Managers.collectStep em rm (.factory c out)
        = (em, rm.add_commodity_deficit c out.commodity_out, .factory c out) := by
      simp only [Managers.collectStep, h, Bool.false_eq_true, if_false]
    rw [hstep]
    simp only [MResourceManager.add_commodity_deficit]
    refine ⟨by trivial, by trivial, by trivial, by trivial, by simp [setF_same],
      fun c' hc => by simp [setF_other _ _ _ _ hc]⟩

/-- Witness for C4: a Concrete-style recipe (energy 45, 15 Silica) on a
ledger with `output = 50` and 20 Silica produces: pooled energy drops by
exactly 45, Silica drops to 5, the commodity stock rises by 1. -/
theorem C4_factory_all_or_nothing_witness :
    (Managers.collectStep ⟨50, 0, 0, 0⟩
        ⟨fun _ => 20, fun _ => 0, fun _ => 0, fun _ => 0⟩
        (.factory Commodity.concrete ⟨1, 45, [(Resource.silica, 15)]⟩)).1.output
      + (Managers.collectStep ⟨50, 0, 0, 0⟩
        ⟨fun _ => 20, fun _ => 0, fun _ => 0, fun _ => 0⟩
        (.factory Commodity.concrete ⟨1, 45, [(Resource.silica, 15)]⟩)).1.stored
      + 45 = 50 + 0
    ∧ (Managers.collectStep ⟨50, 0, 0, 0⟩
        ⟨fun _ => 20, fun _ => 0, fun _ => 0, fun _ => 0⟩
        (.factory Commodity.concrete ⟨1, 45, [(Resource.silica, 15)]⟩)).2.1.commodities
        Commodity.concrete = 0 + 1 := by
  have h := (C4_factory_all_or_nothing ⟨50, 0, 0, 0⟩
      ⟨fun _ => 20, fun _ => 0, fun _ => 0, fun _ => 0⟩
      Commodity.concrete ⟨1, 45, [(Resource.silica, 15)]⟩ (by decide)).1
    ⟨by decide, by decide⟩
  exact ⟨h.1, h.2.2.2.1⟩

/-- C5: the Mine arm of the `managers.rs` production pass is all-or-nothing:
with `has_energy(energy_in)` it removes exactly `energy_in` from the pooled
energy (output plus stored) and deposits `resource_out` of its resource;
otherwise it only records an energy deficit of `energy_in` and a resource
deficit of `resource_out`, leaving every stock and the pooled energy
untouched. -/
theorem C5_mine_all_or_nothing (em : EnergyManager) (rm : MResourceManager)
    (resource : Resource) (energy_in resource_out : Nat) :
    (em.has_energy energy_in = true →
      (Managers.collectStep em rm (.mine resource energy_in resource_out)).1.output
          + (Managers.collectStep em rm (.mine resource energy_in resource_out)).1.stored
          + energy_in
        = em.output + em.stored
      ∧ (Managers.collectStep em rm (.mine resource energy_in resource_out)).2.1.resources resource
        = rm.resources resource + resource_out
      ∧ (∀ r, r ≠ resource →
          (Managers.collectStep em rm (.mine resource energy_in resource_out)).2.1.resources r
            = rm.resources r)
      ∧ (Managers.collectStep em rm (.mine resource energy_in resource_out)).2.1.resources_deficit
        = rm.resources_deficit
      ∧ (Managers.collectStep em rm (.mine resource energy_in resource_out)).2.1.commodities
        = rm.commodities
      ∧ (Managers.collectStep em rm (.mine resource energy_in resource_out)).2.1.commodities_deficit
        = rm.commodities_deficit)
    ∧ (em.has_energy energy_in = false →
      (Managers.collectStep em rm (.mine resource energy_in resource_out)).1
        = em.deposit_deficit energy_in
      ∧ (Managers.collectStep em rm (.mine resource energy_in resource_out)).2.1.resources
        = rm.resources
      ∧ (Managers.collectStep em rm (.mine resource energy_in resource_out)).2.1.resources_deficit resource
        = rm.resources_deficit resource + resource_out
      ∧ (∀ r, r ≠ resource →
          (Managers.collectStep em rm (.mine resource energy_in resource_out)).2.1.resources_deficit r
            = rm.resources_deficit r)
      ∧ (Managers.collectStep em rm (.mine resource energy_in resource_out)).2.1.commodities
        = rm.commodities
      ∧ (Managers.collectStep em rm (.mine resource energy_in resource_out)).2.1.commodities_deficit
        = rm.commodities_deficit) := by
  constructor
  · intro h
    simp only [Managers.collectStep, h, if_true, managersWithdraw_spec,
      MResourceManager.deposit_resource]
    simp only [EnergyManager.has_energy, EnergyManager.combined, Bool.or_eq_true,
      decide_eq_true_eq] at h
    refine ⟨?_, by simp [setF_same], fun r hr => by simp [setF_other _ _ _ _ hr],
      by trivial, by trivial, by trivial⟩
    split_ifs <;> simp <;> omega
  · intro h
    simp only [Managers.collectStep, h, if_false, Bool.false_eq_true,
      MResourceManager.add_resource_deficit]
    refine ⟨by trivial, by trivial, by simp [setF_same],
      fun r hr => by simp [setF_other _ _ _ _ hr], by trivial, by trivial⟩

/-- Witness for C5: a Mine `(energy_in 25, resource_out 100, Iron)` on a
ledger with `output = 30` mines, raising the Iron stock from 0 to 100 and
draining exactly 25 from the pooled energy. -/
theorem C5_mine_all_or_nothing_witness :
    (Managers.collectStep ⟨30, 0, 0, 0⟩ ⟨fun _ => 0, fun _ => 0, fun _ => 0, fun _ => 0⟩
        (.mine Resource.iron 25 100)).1.output
      + (Managers.collectStep ⟨30, 0, 0, 0⟩ ⟨fun _ => 0, fun _ => 0, fun _ => 0, fun _ => 0⟩
        (.mine Resource.iron 25 100)).1.stored + 25 = 30 + 0
    ∧ (Managers.collectStep ⟨30, 0, 0, 0⟩ ⟨fun _ => 0, fun _ => 0, fun _ => 0, fun _ => 0⟩
        (.mine Resource.iron 25 100)).2.1.resources Resource.iron = 0 + 100 := by
  have h := (C5_mine_all_or_nothing ⟨30, 0, 0, 0⟩
    ⟨fun _ => 0, fun _ => 0, fun _ => 0, fun _ => 0⟩ Resource.iron 25 100).1 (by decide)
  exact ⟨h.1, h.2.1⟩

/-- C7: in the storage-intake arm the amount entering the structure's local
store equals exactly the amount leaving the global stock (their sum is
conserved for every resource), the local store stays within capacity, and in
Scenario D (Iron capacity 1000, local store 0, global stock 1500) the pass
ends with `storage.resource(Iron) = 1000` and global Iron stock 500. -/
theorem C7_storage_intake_conserves (store : ResourceStorageComponent)
    (stocks : Resource → Nat) :
    (∀ r, (storageIntake store stocks).1.resources r + (storageIntake store stocks).2 r
        = store.resources r + stocks r)
    ∧ ((∀ r, store.resources r ≤ store.capacity r) →
        ∀ r, (storageIntake store stocks).1.resources r
          ≤ (storageIntake store stocks).1.capacity r)
    ∧ (storageIntake (ResourceStorageComponent.new Resource.all)
        (setF (fun _ => 0) Resource.iron 1500)).1.resources Resource.iron = 1000
    ∧ (storageIntake (ResourceStorageComponent.new Resource.all)
        (setF (fun _ => 0) Resource.iron 1500)).2 Resource.iron = 500 := by
  refine ⟨(storageIntakeAux_spec Resource.all store stocks).2.2,
    fun h => storageIntakeAux_inv Resource.all store stocks h, by decide, by decide⟩

/-- Witness for C7: the capacity bound instantiated at the Scenario D input
(fresh storage, 1500 global Iron), evaluated at Iron. -/
theorem C7_storage_intake_conserves_witness :
    (storageIntake (ResourceStorageComponent.new Resource.all)
        (setF (fun _ => 0) Resource.iron 1500)).1.resources Resource.iron
      ≤ (storageIntake (ResourceStorageComponent.new Resource.all)
        (setF (fun _ => 0) Resource.iron 1500)).1.capacity Resource.iron :=
  (C7_storage_intake_conserves (ResourceStorageComponent.new Resource.all)
    (setF (fun _ => 0) Resource.iron 1500)).2.1
    (fun r => Nat.zero_le _) Resource.iron

/-- C6: `stored ≤ capacity` holds for freshly built storage components and
batteries (`ResourceStorageComponent::new`, `CommodityStorageComponent::new`,
`Base::new`), the clamped `charge` / `resource_add` / `commodity_add`
operations accept at most the free capacity, return at most the requested
amount and preserve the bound (as does `discharge`), and a full tick of
`GameEvent::Update` preserves the bound for every placed structure. -/
theorem C6_capacity_invariant :
    (∀ items r, (ResourceStorageComponent.new items).resources r
        ≤ (ResourceStorageComponent.new items).capacity r)
    ∧ (∀ items c, (CommodityStorageComponent.new items).commodities c
        ≤ (CommodityStorageComponent.new items).capacity c)
    ∧ structInv Base.new
    ∧ (∀ b a, (BatteryComponent.charge b a).2 ≤ a
        ∧ (BatteryComponent.charge b a).2 ≤ b.capacity_free
        ∧ (BatteryComponent.charge b a).1.stored
            = b.stored + (BatteryComponent.charge b a).2
        ∧ (b.stored ≤ b.capacity →
            (BatteryComponent.charge b a).1.stored
              ≤ (BatteryComponent.charge b a).1.capacity))
    ∧ (∀ b a, (BatteryComponent.discharge b a).2 ≤ a
        ∧ (b.stored ≤ b.capacity →
            (BatteryComponent.discharge b a).1.stored
              ≤ (BatteryComponent.discharge b a).1.capacity))
    ∧ (∀ c g a, (Blueprint.resource_add c g a).2 ≤ a
        ∧ (Blueprint.resource_add c g a).2 ≤ c.capacity_free g
        ∧ (∀ k, c.resources k ≤ c.capacity k →
            (Blueprint.resource_add c g a).1.resources k
              ≤ (Blueprint.resource_add c g a).1.capacity k))
    ∧ (∀ c g a, (Blueprint.commodity_add c g a).2 ≤ a
        ∧ (Blueprint.commodity_add c g a).2 ≤ c.capacity_free g
        ∧ (∀ k, c.commodities k ≤ c.capacity k →
            (Blueprint.commodity_add c g a).1.commodities k
              ≤ (Blueprint.commodity_add c g a).1.capacity k))
    ∧ (∀ l e rm, (∀ s ∈ l, structInv s) →
        ∀ s' ∈ (Game.update l e rm).1, structInv s') := by
  refine ⟨fun items r => Nat.zero_le _, fun items c => Nat.zero_le _,
    Nat.zero_le _, fun b a => ?_, fun b a => ?_, fun c g a => ?_, fun c g a => ?_,
    Game.update_inv⟩
  · obtain ⟨h1, h2, h3, h4, h5⟩ := BatteryComponent.charge_spec b a
    exact ⟨h1, h2, h3, h5⟩
  · obtain ⟨h1, h2, h3, h4, h5⟩ := BatteryComponent.discharge_spec b a
    exact ⟨h1, h5⟩
  · obtain ⟨h1, h2, h3, h4, h5, h6, h7⟩ := Blueprint.resource_add_spec c g a
    exact ⟨h1, h2, fun k hk => by rw [h3]; exact h7 k hk⟩
  · obtain ⟨h1, h2, h3, h4, h5, h6⟩ := Blueprint.commodity_add_spec c g a
    exact ⟨h1, h2, fun k hk => by rw [h3]; exact h6 k hk⟩

/-- Witness for C6: the preservation statements instantiated on a battery
holding 300 of 1000 charged by 800 (it accepts 700), and one tick over a
fresh Base and PowerPlant. -/
theorem C6_capacity_invariant_witness :
    (BatteryComponent.charge ⟨1000, 300⟩ 800).1.stored
      ≤ (BatteryComponent.charge ⟨1000, 300⟩ 800).1.capacity
    ∧ ∀ s' ∈ (Game.update [Base.new, PowerPlant.new] EnergyManager.new
        ⟨fun _ => 0, fun _ => 0⟩).1, structInv s' := by
  refine ⟨(C6_capacity_invariant.2.2.2.1 ⟨1000, 300⟩ 800).2.2.2 (by decide),
    C6_capacity_invariant.2.2.2.2.2.2.2 [Base.new, PowerPlant.new] EnergyManager.new
      ⟨fun _ => 0, fun _ => 0⟩ ?_⟩
  intro s hs
  rcases List.mem_cons.mp hs with rfl | hs2
  · exact Nat.zero_le _
  · rcases List.mem_cons.mp hs2 with rfl | hs3
    · trivial
    · cases hs3

end ExoColony
